import Mathlib

/-!
Verification of the focus-group engine (`engine.py`) of the irm-personas-api
repository.  The engine is embedded shallowly: the external text-generation
capability is a function parameter, Python dicts become association lists
preserving insertion order, and Python exceptions become explicit error
values threaded together with the (possibly mutated) engine state.
-/

set_option autoImplicit false

namespace FocusGroup

/-- A persona record as produced by `Persona.from_dict` (engine.py, `Persona`). -/
structure Persona where
  id : Nat
  name : String
  age : Nat
  occupation : String
  location : String
  backstory : String
  category_relationship : String
  personality_traits : List String
  speech_patterns : List String
  likely_opinions : List (String × String)
deriving Repr, DecidableEq

/-- A raw persona entry of the audience catalog, before `Persona.from_dict`:
the trait, speech and opinion fields may be absent (`data.get(..., default)`). -/
structure PersonaRecord where
  id : Nat
  name : String
  age : Nat
  occupation : String
  location : String
  backstory : String
  category_relationship : String
  personality_traits : Option (List String)
  speech_patterns : Option (List String)
  likely_opinions : Option (List (String × String))
deriving Repr, DecidableEq

/-- `Persona.from_dict` (engine.py lines 46-59): missing optional fields default
to empty collections. -/
def PersonaRecord.from_dict (r : PersonaRecord) : Persona :=
  { id := r.id
    name := r.name
    age := r.age
    occupation := r.occupation
    location := r.location
    backstory := r.backstory
    category_relationship := r.category_relationship
    personality_traits := r.personality_traits.getD []
    speech_patterns := r.speech_patterns.getD []
    likely_opinions := r.likely_opinions.getD [] }

/-- A generated reply (engine.py, `Response`). -/
structure Response where
  persona_id : Nat
  persona_name : String
  text : String
deriving Repr, DecidableEq

/-- One transcript entry: the two dict shapes used by the engine,
`\x7brole: "moderator", text\x7d` and
`\x7brole: "persona", persona_id, persona_name, text\x7d`. -/
inductive Entry where
  | moderator (text : String)
  | persona (persona_id : Nat) (persona_name : String) (text : String)
deriving Repr, DecidableEq

/-- Python exceptions raised by the engine paths we model. -/
inductive EngineError where
  | valueError (msg : String)
  | typeErrorUnhashable
  | indexError
  | keyError (k : Nat)
deriving Repr, DecidableEq

/-- Python slice `l[-n:]`: the last `n` elements (all of them when fewer). -/
def pyTail {α : Type} (n : Nat) (l : List α) : List α :=
  l.drop (l.length - n)

/-- Python `str` whitespace (the ASCII part: space, tab, newline, carriage
return, vertical tab, form feed). -/
def isPyWs (c : Char) : Bool :=
  c = ' ' || c = '\t' || c = '\n' || c = '\r' || c = Char.ofNat 11 || c = Char.ofNat 12

/-- Python `s.strip()`: remove leading and trailing whitespace. -/
def pyStrip (s : String) : String :=
  String.mk (((s.data.dropWhile isPyWs).reverse.dropWhile isPyWs).reverse)

/-! ### The persona-history dict

`self.persona_history : Dict[int, List[str]]` is modelled as an association
list in insertion order, the order Python dicts preserve. -/

abbrev HistDict := List (Nat × List String)

/-- `k in d`. -/
def dictContains : HistDict → Nat → Bool
  | [], _ => false
  | kv :: tl, k => if kv.1 = k then true else dictContains tl k

/-- `d[k]` as an option (the first binding wins; keys are unique). -/
def dictGet : HistDict → Nat → Option (List String)
  | [], _ => none
  | kv :: tl, k => if kv.1 = k then some kv.2 else dictGet tl k

/-- `d[k].append(v)` on the binding of `k` (no-op when `k` is absent; every
caller first checks `k in d`, mirroring the `KeyError` explicitly). -/
def dictAppend : HistDict → Nat → String → HistDict
  | [], _, _ => []
  | kv :: tl, k, v => (if kv.1 = k then (kv.1, kv.2 ++ [v]) else kv) :: dictAppend tl k v

/-- One step of the dict comprehension `\x7bp.id: [] for p in personas\x7d`:
a repeated key keeps its first position and its value stays `[]`. -/
def insertKey (d : HistDict) (k : Nat) : HistDict :=
  if dictContains d k then d else d ++ [(k, [])]

/-- `\x7bp.id: [] for p in self.personas\x7d`. -/
def initHist (ps : List Persona) : HistDict :=
  ps.foldl (fun d p => insertKey d p.id) []

/-! ### Engine state -/

/-- The mutable fields of `FocusGroupEngine` (the Anthropic client is the
external capability, passed as a function where used). -/
structure EngineState where
  personas : List Persona
  audience_id : Option String
  category : String
  transcript : List Entry
  persona_history : HistDict
deriving Repr, DecidableEq

/-- `FocusGroupEngine.__init__`. -/
def initState : EngineState :=
  { personas := [], audience_id := none, category := "", transcript := [], persona_history := [] }

/-- Spec-side view: `[e.text for e in Transcript if e.role=="persona" and e.persona_id==p]`. -/
def memoryView (transcript : List Entry) (pid : Nat) : List String :=
  transcript.filterMap (fun e =>
    match e with
    | .moderator _ => none
    | .persona pid' _ text => if pid' = pid then some text else none)

/-- One iteration of the `_rebuild_state_from_history` loop (engine.py 382-386):
append the text when the entry is a persona entry whose id is a known key. -/
def rebuildStep (d : HistDict) (e : Entry) : HistDict :=
  match e with
  | .moderator _ => d
  | .persona pid _ text => if dictContains d pid then dictAppend d pid text else d

/-- The persona-history dict `_rebuild_state_from_history` computes from a
history, starting from the fresh `\x7bp.id: [] for p in personas\x7d`. -/
def rebuildHist (ps : List Persona) (history : List Entry) : HistDict :=
  history.foldl rebuildStep (initHist ps)

/-- `FocusGroupEngine._rebuild_state_from_history` (engine.py 376-386). -/
def rebuild_state_from_history (s : EngineState) (history : List Entry) : EngineState :=
  { s with transcript := history, persona_history := rebuildHist s.personas history }

/-! ### Prompt assembly -/

/-- The `history_text` block of `_build_persona_prompt` (engine.py 133-139):
empty when the persona has said nothing, otherwise the last 5 statements
quoted, built by the imperative `+=` loop, plus the instruction line. -/
def historyText (previous : List String) : String :=
  if previous.isEmpty then ""
  else
    "\n\nWHAT YOU\x27VE ALREADY SAID IN THIS CONVERSATION:\n"
      ++ (pyTail 5 previous).foldl (fun acc stmt => acc ++ "- \"" ++ stmt ++ "\"\n") ""
      ++ "\nDo NOT contradict these. You can reference them naturally."

/-- The category line: `self.category.upper() if self.category else 'THIS TOPIC'`. -/
def categoryHeading (category : String) : String :=
  if category = "" then "THIS TOPIC" else category.toUpper

/-- The persona-grounding template text before the `history_text` slot:
identity fields, backstory, category relationship, traits and speech
patterns (engine.py 141-159). -/
def promptHead (s : EngineState) (p : Persona) : String :=
  "You ARE " ++ p.name ++ ". You are participating in a focus group discussion.\n\nWHO YOU ARE:\n- Name: "
    ++ p.name ++ "\n- Age: " ++ toString p.age ++ "\n- Occupation: " ++ p.occupation
    ++ "\n- Location: " ++ p.location ++ "\n\nYOUR STORY:\n" ++ p.backstory
    ++ "\n\nYOUR RELATIONSHIP TO " ++ categoryHeading s.category ++ ":\n"
    ++ p.category_relationship ++ "\n\nYOUR PERSONALITY:\n"
    ++ String.intercalate ", " p.personality_traits ++ "\n\nHOW YOU SPEAK:\n"
    ++ String.intercalate ", " p.speech_patterns ++ "\n"

/-- The persona-grounding template text after the `history_text` slot
(engine.py 162-180). -/
def promptClose (p : Persona) : String :=
  "\n\n---\n\nCRITICAL INSTRUCTIONS:\n1. Respond AS " ++ p.name
    ++ " - stay in character completely\n2. Use language natural to your background and personality\n3. Reference your actual experiences and history\n4. Don\x27t sanitize your opinion - give your REAL view\n5. Typical response: 2-4 sentences (but vary naturally - some answers are shorter)\n\nNEVER DO THESE:\n- Sound like a generic survey respondent\n- Start with \"I think...\" every time (vary: \"Honestly,\" \"For me,\" \"Look,\" \"So,\" etc.)\n- Use phrases like \"quality matters to me\" or \"it depends\"\n- Contradict what you\x27ve already said\n- Suddenly know things "
    ++ p.name ++ " wouldn\x27t know\n- Use perfect grammar if that doesn\x27t fit your character\n- Use survey-speak like \"I would say that...\" or \"In my opinion...\"\n\nRespond naturally and authentically as "
    ++ p.name ++ "."

/-- `FocusGroupEngine._build_persona_prompt` (engine.py 129-180): the f-string
interpolates `history_text` between the two literal template parts. -/
def build_persona_prompt (s : EngineState) (p : Persona) : String :=
  promptHead s p
    ++ historyText ((dictGet s.persona_history p.id).getD [])
    ++ promptClose p

/-- Spec-side view: the persona name carried by a transcript entry, if any. -/
def personaNameOf : Entry → Option String
  | .moderator _ => none
  | .persona _ name _ => some name

/-- Spec-side concatenation of a list of strings, in order. -/
def concatAll : List String → String
  | [] => ""
  | s :: l => s ++ concatAll l

/-- The `recent_speakers` list of `_select_responders` (engine.py 186-189):
the imperative loop over `self.transcript[-6:]` appending every persona
entry's name (duplicates are kept). -/
def recentSpeakersLoop (transcript : List Entry) : List String :=
  (pyTail 6 transcript).foldl (fun acc e =>
    match e with
    | .moderator _ => acc
    | .persona _ name _ => acc ++ [name]) []

/-- One line of `persona_summaries` (engine.py 191-197). -/
def personaSummary (d : HistDict) (p : Persona) : String :=
  "- " ++ p.name ++ " (" ++ toString p.age ++ ", " ++ p.occupation ++ "): "
    ++ p.personality_traits.headD "neutral" ++ ". Statements so far: "
    ++ toString ((dictGet d p.id).getD []).length

/-- The `Recent speakers` field text:
`', '.join(recent_speakers) if recent_speakers else 'None yet'`. -/
def recentSpeakersText (transcript : List Entry) : String :=
  if (recentSpeakersLoop transcript).isEmpty then "None yet"
  else String.intercalate ", " (recentSpeakersLoop transcript)

/-- The selection prompt of `_select_responders` (engine.py 199-217). -/
def selectionRequest (s : EngineState) (question : String) : String :=
  "You are moderating a focus group. The moderator just asked:\n\n\"" ++ question
    ++ "\"\n\nHere are the participants:\n"
    ++ String.intercalate "\n" (s.personas.map (personaSummary s.persona_history))
    ++ "\n\nRecent speakers (last few responses): " ++ recentSpeakersText s.transcript
    ++ "\n\nSelect 2-4 participants who would NATURALLY respond to this question. Consider:\n1. Who has relevant experience/opinions based on their profile?\n2. Who hasn\x27t spoken recently and might want to contribute?\n3. Natural group dynamics - some people talk more than others\n4. The question topic - who would this resonate with?\n\nReturn ONLY a JSON array of participant names who should respond, in the order they\x27d speak.\nExample: [\"Marcus\", \"Jennifer\", \"David\"]\n\nDo NOT include everyone. Real focus groups have natural turn-taking."

/-- The `recent_context` loop of `_generate_response` (engine.py 258-263). -/
def recentContext (transcript : List Entry) : String :=
  (pyTail 8 transcript).foldl (fun acc e =>
    match e with
    | .moderator text => acc ++ "\nModerator: " ++ text
    | .persona _ name text => acc ++ "\n" ++ name ++ ": " ++ text) ""

/-- The user message of `_generate_response` (engine.py 265-267). -/
def userMessage (transcript : List Entry) (question : String) : String :=
  if recentContext transcript = "" then question
  else "[Recent conversation]" ++ recentContext transcript
    ++ "\n\n---\n\nModerator\x27s current question: " ++ question

/-- `FocusGroupEngine._generate_response` (engine.py 252-277): the external
capability `gen` receives the system prompt and user message; the reply is
stripped. -/
def generate_response (gen : String → String → String) (s : EngineState) (p : Persona)
    (question : String) : String :=
  pyStrip (gen (build_persona_prompt s p) (userMessage s.transcript question))

/-! ### JSON parsing (`json.loads` over the bracket-matched substring)

`_select_responders` extracts the first `\[.*?\]` match from the raw reply
and feeds it to `json.loads`, catching only `JSONDecodeError`.  We embed a
JSON value type and a strict recursive-descent parser. -/

/-- JSON values as Python's `json.loads` produces them.  The numeric token is
kept raw: the engine only ever tests values for membership in a dict with
string keys, where no number can match. -/
inductive JVal where
  | jnull : JVal
  | jbool : Bool → JVal
  | jnum : String → JVal
  | jstr : String → JVal
  | jarr : List JVal → JVal
  | jobj : List (String × JVal) → JVal

def lbrace : Char := Char.ofNat 123

def rbrace : Char := Char.ofNat 125

/-- JSON whitespace (space, tab, newline, carriage return). -/
def isJsonWs (c : Char) : Bool :=
  c = ' ' || c = '\t' || c = '\n' || c = '\r'

def skipWs (cs : List Char) : List Char :=
  cs.dropWhile isJsonWs

def hexVal (c : Char) : Option Nat :=
  if c.isDigit then some (c.toNat - 48)
  else if 'a' ≤ c && c ≤ 'f' then some (c.toNat - 87)
  else if 'A' ≤ c && c ≤ 'F' then some (c.toNat - 55)
  else none

/-- Parse the body of a JSON string literal (after the opening quote), strict
as `json.loads` is: raw control characters and unknown escapes are rejected. -/
def parseStringBody : List Char → Option (String × List Char)
  | [] => none
  | c :: rest =>
    if c = '"' then some ("", rest)
    else if c = '\\' then
      match rest with
      | [] => none
      | e :: rest2 =>
        if e = 'u' then
          match rest2 with
          | h1 :: h2 :: h3 :: h4 :: rest3 =>
            match hexVal h1, hexVal h2, hexVal h3, hexVal h4 with
            | some n1, some n2, some n3, some n4 =>
              (parseStringBody rest3).map (fun sr =>
                (String.mk (Char.ofNat (n1 * 4096 + n2 * 256 + n3 * 16 + n4) :: sr.1.data), sr.2))
            | _, _, _, _ => none
          | _ => none
        else
          let dec : Option Char :=
            if e = '"' then some '"'
            else if e = '\\' then some '\\'
            else if e = '/' then some '/'
            else if e = 'b' then some (Char.ofNat 8)
            else if e = 'f' then some (Char.ofNat 12)
            else if e = 'n' then some '\n'
            else if e = 'r' then some '\r'
            else if e = 't' then some '\t'
            else none
          match dec with
          | some d => (parseStringBody rest2).map (fun sr => (String.mk (d :: sr.1.data), sr.2))
          | none => none
    else if c.toNat < 32 then none
    else (parseStringBody rest).map (fun sr => (String.mk (c :: sr.1.data), sr.2))

/-- The fractional part of a JSON number token. -/
def parseFrac (cs : List Char) : Option (List Char × List Char) :=
  match cs with
  | '.' :: r =>
    let ds := r.takeWhile Char.isDigit
    if ds.isEmpty then none else some ('.' :: ds, r.drop ds.length)
  | _ => some ([], cs)

/-- The exponent part of a JSON number token. -/
def parseExpPart (cs : List Char) : Option (List Char × List Char) :=
  match cs with
  | c :: r =>
    if c = 'e' || c = 'E' then
      match r with
      | s :: r2 =>
        if s = '+' || s = '-' then
          let ds := r2.takeWhile Char.isDigit
          if ds.isEmpty then none else some (c :: s :: ds, r2.drop ds.length)
        else
          let ds := r.takeWhile Char.isDigit
          if ds.isEmpty then none else some (c :: ds, r.drop ds.length)
      | [] => none
    else some ([], cs)
  | [] => some ([], cs)

/-- A JSON number token: `-? int frac? exp?`, no leading zeros. -/
def parseNumberToken (cs : List Char) : Option (String × List Char) :=
  let (sign, cs1) : List Char × List Char :=
    match cs with
    | '-' :: r => (['-'], r)
    | _ => ([], cs)
  match cs1 with
  | [] => none
  | c :: r =>
    if c = '0' then
      match parseFrac r with
      | none => none
      | some (f, r2) =>
        match parseExpPart r2 with
        | none => none
        | some (e, r3) => some (String.mk (sign ++ [c] ++ f ++ e), r3)
    else if c.isDigit then
      let ds := r.takeWhile Char.isDigit
      match parseFrac (r.drop ds.length) with
      | none => none
      | some (f, r2) =>
        match parseExpPart r2 with
        | none => none
        | some (e, r3) => some (String.mk (sign ++ c :: ds ++ f ++ e), r3)
    else none

mutual

/-- Parse one JSON value (fuel-indexed recursive descent). -/
def parseVal : Nat → List Char → Option (JVal × List Char)
  | 0, _ => none
  | Nat.succ fuel, cs =>
    match skipWs cs with
    | [] => none
    | c :: rest =>
      if c = '[' then
        match skipWs rest with
        | ']' :: r2 => some (.jarr [], r2)
        | r1 => (parseElems fuel r1).map (fun lr => (.jarr lr.1, lr.2))
      else if c = lbrace then
        match skipWs rest with
        | r0 :: r2 =>
          if r0 = rbrace then some (.jobj [], r2)
          else (parseMembers fuel (r0 :: r2)).map (fun lr => (.jobj lr.1, lr.2))
        | [] => none
      else if c = '"' then
        (parseStringBody rest).map (fun sr => (.jstr sr.1, sr.2))
      else if c = 't' then
        match rest with
        | 'r' :: 'u' :: 'e' :: r => some (.jbool true, r)
        | _ => none
      else if c = 'f' then
        match rest with
        | 'a' :: 'l' :: 's' :: 'e' :: r => some (.jbool false, r)
        | _ => none
      else if c = 'n' then
        match rest with
        | 'u' :: 'l' :: 'l' :: r => some (.jnull, r)
        | _ => none
      else
        (parseNumberToken (c :: rest)).map (fun sr => (.jnum sr.1, sr.2))

/-- Parse the elements of a non-empty JSON array, up to the closing bracket. -/
def parseElems : Nat → List Char → Option (List JVal × List Char)
  | 0, _ => none
  | Nat.succ fuel, cs =>
    match parseVal fuel cs with
    | none => none
    | some (v, r) =>
      match skipWs r with
      | ',' :: r2 => (parseElems fuel r2).map (fun lr => (v :: lr.1, lr.2))
      | ']' :: r2 => some ([v], r2)
      | _ => none

/-- Parse the members of a non-empty JSON object, up to the closing brace. -/
def parseMembers : Nat → List Char → Option (List (String × JVal) × List Char)
  | 0, _ => none
  | Nat.succ fuel, cs =>
    match skipWs cs with
    | c :: rest =>
      if c = '"' then
        match parseStringBody rest with
        | none => none
        | some (k, r) =>
          match skipWs r with
          | ':' :: r2 =>
            match parseVal fuel r2 with
            | none => none
            | some (v, r3) =>
              match skipWs r3 with
              | ',' :: r4 => (parseMembers fuel r4).map (fun lr => ((k, v) :: lr.1, lr.2))
              | x :: r4 => if x = rbrace then some ([(k, v)], r4) else none
              | [] => none
          | _ => none
      else none
    | [] => none

end

/-- `json.loads`: parse one value, allow surrounding whitespace, reject
trailing input. -/
def jsonLoads (s : String) : Option JVal :=
  match parseVal (2 * s.length + 2) s.data with
  | some (v, rest) => if (skipWs rest).isEmpty then some v else none
  | none => none

/-! ### Responder selection -/

/-- `re.search(r'\[.*?\]', text, re.DOTALL)`: the match starts at the first
opening bracket and ends at the first closing bracket after it. -/
def extractBracket (s : String) : Option String :=
  match s.data.findIdx? (fun c => c = '[') with
  | none => none
  | some i =>
    match (s.data.drop (i + 1)).findIdx? (fun c => c = ']') with
    | none => none
    | some j => some (String.mk ((s.data.drop i).take (j + 2)))

/-- `p.name.split()[0]`: the first whitespace-separated word, `IndexError`
when there is none. -/
def firstWord (s : String) : Option String :=
  match s.data.dropWhile isPyWs with
  | [] => none
  | rest => some (String.mk (rest.takeWhile (fun c => !isPyWs c)))

/-- The `name_to_id` dict build (engine.py 236-241): full name and first name
both map to the persona id; later personas overwrite earlier bindings. -/
def buildNameToId (ps : List Persona) : Except EngineError (List (String × Nat)) :=
  ps.foldlM (fun acc p =>
    match firstWord p.name with
    | none => .error .indexError
    | some w => .ok (acc ++ [(p.name, p.id), (w, p.id)])) []

/-- Dict lookup with Python overwrite semantics: the last binding wins. -/
def dictLookupStr (d : List (String × Nat)) (k : String) : Option Nat :=
  (d.reverse.find? (fun kv => kv.1 == k)).map (fun kv => kv.2)

/-- `[name_to_id[n] for n in names if n in name_to_id]`: unmatched names are
dropped, duplicates kept; an unhashable element (list or dict) raises
`TypeError` from the membership test. -/
def resolveNames (d : List (String × Nat)) : List JVal → Except EngineError (List Nat)
  | [] => .ok []
  | v :: rest =>
    match v with
    | .jarr _ => .error .typeErrorUnhashable
    | .jobj _ => .error .typeErrorUnhashable
    | .jstr n =>
      match resolveNames d rest with
      | .error e => .error e
      | .ok tail =>
        match dictLookupStr d n with
        | some i => .ok (i :: tail)
        | none => .ok tail
    | _ =>
      match resolveNames d rest with
      | .error e => .error e
      | .ok tail => .ok tail

/-- `self.personas[:3]` ids: the deterministic fallback. -/
def fallbackIds (s : EngineState) : List Nat :=
  (s.personas.take 3).map (fun p => p.id)

/-- `FocusGroupEngine._select_responders` (engine.py 182-250): the external
capability `llm` receives the selection prompt; the reply is stripped, the
first bracketed substring parsed as JSON (only decode errors fall back),
names resolved, and an empty result falls back to the first 3 personas. -/
def select_responders (llm : String → String) (s : EngineState) (question : String) :
    Except EngineError (List Nat) :=
  let text := pyStrip (llm (selectionRequest s question))
  match extractBracket text with
  | none => .ok (fallbackIds s)
  | some m =>
    match jsonLoads m with
    | none => .ok (fallbackIds s)
    | some (.jarr names) =>
      match buildNameToId s.personas with
      | .error e => .error e
      | .ok d =>
        match resolveNames d names with
        | .error e => .error e
        | .ok selected =>
          if selected.isEmpty then .ok (fallbackIds s) else .ok selected
    | some _ => .ok (fallbackIds s)

/-! ### The orchestrator operations -/

/-- The persona transcript entry appended for a response. -/
def respEntry (r : Response) : Entry :=
  .persona r.persona_id r.persona_name r.text

/-- The `Response` built for one loop iteration of `ask` (engine.py 316-320). -/
def stepResponse (gen : String → String → String) (s : EngineState) (pid : Nat)
    (persona : Persona) (question : String) : Response :=
  ⟨pid, persona.name, generate_response gen s persona question⟩

/-- The state after one loop iteration of `ask` (engine.py 305-314): the
reply text is recorded in the persona history and appended to the transcript. -/
def stepState (gen : String → String → String) (s : EngineState) (pid : Nat)
    (persona : Persona) (question : String) : EngineState :=
  { s with
    persona_history := dictAppend s.persona_history pid (generate_response gen s persona question),
    transcript := s.transcript ++ [.persona pid persona.name (generate_response gen s persona question)] }

/-- The per-responder loop of `ask` (engine.py 298-320): unknown ids are
skipped; each reply is recorded in the persona history (a `KeyError` would
abort the turn) and the transcript, threading the state so later replies see
earlier ones. -/
def askLoop (gen : String → String → String) (question : String) :
    List Nat → EngineState → List Response → EngineState × Except EngineError (List Response)
  | [], s, acc => (s, .ok acc)
  | pid :: rest, s, acc =>
    match s.personas.find? (fun p => p.id == pid) with
    | none => askLoop gen question rest s acc
    | some persona =>
      if dictContains s.persona_history pid then
        askLoop gen question rest (stepState gen s pid persona question)
          (acc ++ [stepResponse gen s pid persona question])
      else (s, .error (.keyError pid))

/-- `FocusGroupEngine.ask` (engine.py 279-322): record the moderator question,
select responders, then generate and record each reply in order.  The first
component is the engine state after the call, also on the error paths. -/
def ask (sel : String → String) (gen : String → String → String) (s : EngineState)
    (question : String) : EngineState × Except EngineError (List Response) :=
  if s.personas.isEmpty then
    (s, .error (.valueError "No personas loaded. Call load_audience() first."))
  else
    let s1 : EngineState := { s with transcript := s.transcript ++ [.moderator question] }
    match select_responders sel s1 question with
    | .error e => (s1, .error e)
    | .ok ids => askLoop gen question ids s1 []

/-- `FocusGroupEngine.ask_persona` (engine.py 324-352): the unknown-id check
happens before any mutation; the directed moderator entry then carries the
bracketed addressee tag. -/
def ask_persona (gen : String → String → String) (s : EngineState) (persona_id : Nat)
    (question : String) : EngineState × Except EngineError Response :=
  match s.personas.find? (fun p => p.id == persona_id) with
  | none => (s, .error (.valueError ("Persona " ++ toString persona_id ++ " not found")))
  | some persona =>
    let s1 : EngineState :=
      { s with transcript := s.transcript ++ [.moderator ("[To " ++ persona.name ++ "] " ++ question)] }
    let text := generate_response gen s1 persona question
    if dictContains s1.persona_history persona_id then
      ({ s1 with
          persona_history := dictAppend s1.persona_history persona_id text,
          transcript := s1.transcript ++ [.persona persona_id persona.name text] },
        .ok ⟨persona_id, persona.name, text⟩)
    else (s1, .error (.keyError persona_id))

/-! ### The audience catalog and the stateless entry points -/

/-- Modelled from the spec: the audience catalog file `audiences.json` is not
part of the sources, so per §6 it is "a keyed collection,
`audience_id -> \x7bcategory, personas: [...]\x7d`, loaded from a static file
resource; read-only at runtime". -/
structure AudienceData where
  category : String
  personas : List PersonaRecord
deriving Repr, DecidableEq

/-- Modelled from the spec: the keyed collection of audiences. -/
abbrev Catalog := List (String × AudienceData)

/-- Modelled from the spec (§3): persona ids are "unique within an audience";
the engine itself performs no deduplication. -/
def CatalogWellFormed (c : Catalog) : Prop :=
  ∀ e ∈ c, (e.2.personas.map (fun r => r.id)).Nodup

/-- The rendering of `Available: [...]` in the audience-not-found error. -/
def renderAvailable (c : Catalog) : String :=
  "[" ++ String.intercalate ", " (c.map (fun kv => "\x27" ++ kv.1 ++ "\x27")) ++ "]"

/-- `FocusGroupEngine.load_audience` (engine.py 98-120): look the audience up,
set the personas as stored (no deduplication), reset the conversation state.
Returns the new state together with the returned persona list. -/
def load_audience (catalog : Catalog) (audience_id : String) (_s : EngineState) :
    Except EngineError (EngineState × List Persona) :=
  match catalog.find? (fun kv => kv.1 == audience_id) with
  | none =>
    .error (.valueError ("Audience \x27" ++ audience_id ++ "\x27 not found. Available: "
      ++ renderAvailable catalog))
  | some kv =>
    let ps := kv.2.personas.map PersonaRecord.from_dict
    .ok ({ personas := ps,
           audience_id := some audience_id,
           category := kv.2.category,
           transcript := [],
           persona_history := initHist ps }, ps)

/-- `FocusGroupEngine.ask_stateless` (engine.py 388-423): load the audience,
rebuild state from the history when one is supplied (`if history:` — an empty
list skips the rebuild), ask, and return responses plus the new transcript. -/
def ask_stateless (sel : String → String) (gen : String → String → String) (catalog : Catalog)
    (s : EngineState) (question : String) (audience_id : String) (history : List Entry) :
    EngineState × Except EngineError (List Response × List Entry) :=
  match load_audience catalog audience_id s with
  | .error e => (s, .error e)
  | .ok (s1, _) =>
    let s2 := if history.isEmpty then s1 else rebuild_state_from_history s1 history
    match ask sel gen s2 question with
    | (s3, .ok rs) => (s3, .ok (rs, s3.transcript))
    | (s3, .error e) => (s3, .error e)

/-- `FocusGroupEngine.ask_persona_stateless` (engine.py 425-462). -/
def ask_persona_stateless (gen : String → String → String) (catalog : Catalog)
    (s : EngineState) (persona_id : Nat) (question : String) (audience_id : String)
    (history : List Entry) : EngineState × Except EngineError (Response × List Entry) :=
  match load_audience catalog audience_id s with
  | .error e => (s, .error e)
  | .ok (s1, _) =>
    let s2 := if history.isEmpty then s1 else rebuild_state_from_history s1 history
    match ask_persona gen s2 persona_id question with
    | (s3, .ok r) => (s3, .ok (r, s3.transcript))
    | (s3, .error e) => (s3, .error e)

/-! ### Invariants -/

/-- The spec's PersonaMemory invariant: for every loaded persona, the history
dict holds exactly that persona's transcript utterances, in order. -/
def MemInvariant (s : EngineState) : Prop :=
  ∀ p ∈ s.personas, dictGet s.persona_history p.id = some (memoryView s.transcript p.id)

/-- The engine-reachability invariant: the history dict is exactly what a
rebuild from the current transcript would produce. -/
def StrongInv (s : EngineState) : Prop :=
  s.persona_history = rebuildHist s.personas s.transcript

/-! ### Concrete data for witnesses and counterexamples -/

/-- The catalog record corresponding to a fully-populated persona. -/
def toRecord (p : Persona) : PersonaRecord :=
  { id := p.id
    name := p.name
    age := p.age
    occupation := p.occupation
    location := p.location
    backstory := p.backstory
    category_relationship := p.category_relationship
    personality_traits := some p.personality_traits
    speech_patterns := some p.speech_patterns
    likely_opinions := some p.likely_opinions }

def ann : Persona :=
  { id := 1, name := "Ann", age := 34, occupation := "teacher", location := "Rome",
    backstory := "Grew up near a cocoa shop.", category_relationship := "Buys a bar weekly.",
    personality_traits := ["calm"], speech_patterns := ["short sentences"], likely_opinions := [] }

def ben : Persona :=
  { id := 2, name := "Ben", age := 41, occupation := "driver", location := "Oslo",
    backstory := "Never cared for sweets.", category_relationship := "Rarely buys chocolate.",
    personality_traits := ["blunt"], speech_patterns := ["slang"], likely_opinions := [] }

def cal : Persona :=
  { id := 3, name := "Cal", age := 27, occupation := "nurse", location := "Lima",
    backstory := "Works night shifts.", category_relationship := "Snacks at work.",
    personality_traits := ["warm"], speech_patterns := ["rambles"], likely_opinions := [] }

def dee : Persona :=
  { id := 4, name := "Dee", age := 52, occupation := "chef", location := "Kyiv",
    backstory := "Trained as a pastry chef.", category_relationship := "Cooks with it.",
    personality_traits := ["precise"], speech_patterns := ["technical"], likely_opinions := [] }

def exPersonas : List Persona := [ann, ben, cal, dee]

def exCatalog : Catalog :=
  [("premium_chocolate", { category := "premium chocolate", personas := exPersonas.map toRecord })]

/-- The state `load_audience` produces for the example catalog. -/
def exLoaded : EngineState :=
  { personas := (exPersonas.map toRecord).map PersonaRecord.from_dict,
    audience_id := some "premium_chocolate",
    category := "premium chocolate",
    transcript := [],
    persona_history := initHist ((exPersonas.map toRecord).map PersonaRecord.from_dict) }

/-- A state in which Ann has six remembered utterances and the others none. -/
def exState7 : EngineState :=
  { exLoaded with
    persona_history := [(1, ["m1", "m2", "m3", "m4", "m5", "m6"]), (2, []), (3, []), (4, [])] }

/-- A transcript in which Ann speaks twice among the last 6 entries. -/
def exT6 : List Entry :=
  [.moderator "Q1", .persona 1 "Ann" "a1", .persona 2 "Ben" "b1",
   .moderator "Q2", .persona 1 "Ann" "a2"]

/-! ### Dict lemmas -/

theorem dictGet_dictAppend (d : HistDict) (k : Nat) (v : String) (j : Nat) :
    dictGet (dictAppend d k v) j =
      if j = k then (dictGet d j).map (fun l => l ++ [v]) else dictGet d j := by
  induction d with
  | nil => by_cases h : j = k <;> simp [dictGet, dictAppend, h]
  | cons hd tl ih =>
    obtain ⟨a, l⟩ := hd
    simp only [dictAppend, dictGet]
    split_ifs <;> simp_all [dictGet]

theorem dictContains_dictAppend (d : HistDict) (k : Nat) (v : String) (j : Nat) :
    dictContains (dictAppend d k v) j = dictContains d j := by
  induction d with
  | nil => rfl
  | cons hd tl ih =>
    obtain ⟨a, l⟩ := hd
    simp only [dictAppend, dictContains]
    split_ifs <;> simp_all [dictContains]

theorem dictContains_eq_isSome (d : HistDict) (k : Nat) :
    dictContains d k = (dictGet d k).isSome := by
  induction d with
  | nil => rfl
  | cons hd tl ih =>
    obtain ⟨a, l⟩ := hd
    by_cases hak : a = k <;> simp [dictContains, dictGet, hak, ih]

theorem dictContains_append (d1 d2 : HistDict) (j : Nat) :
    dictContains (d1 ++ d2) j = (dictContains d1 j || dictContains d2 j) := by
  induction d1 with
  | nil => simp [dictContains]
  | cons hd tl ih =>
    by_cases h : hd.1 = j <;> simp [dictContains, h, ih]

theorem dictContains_insertKey (d : HistDict) (k j : Nat) :
    dictContains (insertKey d k) j = (dictContains d j || decide (k = j)) := by
  by_cases hdk : dictContains d k
  · by_cases hkj : k = j
    · subst hkj
      simp [insertKey, hdk]
    · simp [insertKey, hdk, hkj]
  · simp [insertKey, hdk, dictContains_append, dictContains]

theorem dictContains_foldl_insert (ps : List Persona) :
    ∀ (d : HistDict) (i : Nat),
      dictContains (ps.foldl (fun d p => insertKey d p.id) d) i =
        (dictContains d i || ps.any (fun p => p.id == i)) := by
  induction ps with
  | nil => simp
  | cons p ps ih =>
    intro d i
    simp only [List.foldl_cons, ih, dictContains_insertKey, List.any_cons]
    by_cases h1 : dictContains d i <;> by_cases h2 : p.id = i <;> simp [h1, h2]

theorem values_nil_insertKey (d : HistDict) (k : Nat)
    (h : ∀ kv ∈ d, kv.2 = ([] : List String)) :
    ∀ kv ∈ insertKey d k, kv.2 = ([] : List String) := by
  intro kv hkv
  by_cases hdk : dictContains d k
  · exact h kv (by simpa [insertKey, hdk] using hkv)
  · simp only [insertKey, hdk, if_neg, Bool.false_eq_true, not_false_eq_true,
      List.mem_append, List.mem_singleton] at hkv
    rcases hkv with h1 | h2
    · exact h kv h1
    · simp [h2]

theorem values_nil_foldl_insert (ps : List Persona) :
    ∀ (d : HistDict), (∀ kv ∈ d, kv.2 = ([] : List String)) →
      ∀ kv ∈ ps.foldl (fun d p => insertKey d p.id) d, kv.2 = ([] : List String) := by
  induction ps with
  | nil => intro d h; simpa using h
  | cons p ps ih =>
    intro d h
    exact ih _ (values_nil_insertKey d p.id h)

theorem dictGet_of_values_nil (d : HistDict) (i : Nat)
    (h : ∀ kv ∈ d, kv.2 = ([] : List String)) :
    dictGet d i = if dictContains d i then some [] else none := by
  induction d with
  | nil => rfl
  | cons hd tl ih =>
    obtain ⟨a, l⟩ := hd
    have ha : l = [] := h (a, l) (by simp)
    have htl : ∀ kv ∈ tl, kv.2 = ([] : List String) := fun kv hkv => h kv (by simp [hkv])
    by_cases hai : a = i <;> simp [dictGet, dictContains, hai, ha, ih htl]

theorem dictGet_initHist (ps : List Persona) (i : Nat) :
    dictGet (initHist ps) i = if ps.any (fun p => p.id == i) then some [] else none := by
  have h := dictGet_of_values_nil (initHist ps) i
    (values_nil_foldl_insert ps [] (by simp))
  rwa [show dictContains (initHist ps) i = ps.any (fun p => p.id == i) by
    simpa [dictContains] using dictContains_foldl_insert ps [] i] at h

theorem dictContains_initHist_of_mem {ps : List Persona} {p : Persona} (hp : p ∈ ps) :
    dictContains (initHist ps) p.id = true := by
  rw [show initHist ps = ps.foldl (fun d p => insertKey d p.id) [] from rfl,
    dictContains_foldl_insert]
  have : ps.any (fun q => q.id == p.id) = true := List.any_eq_true.mpr ⟨p, hp, by simp⟩
  simp [dictContains, this]

/-! ### memoryView lemmas -/

theorem memoryView_append (t u : List Entry) (k : Nat) :
    memoryView (t ++ u) k = memoryView t k ++ memoryView u k := by
  simp [memoryView, List.filterMap_append]

theorem memoryView_moderator (q : String) (k : Nat) :
    memoryView [.moderator q] k = [] := rfl

theorem memoryView_persona (pid : Nat) (n txt : String) (k : Nat) :
    memoryView [.persona pid n txt] k = if pid = k then [txt] else [] := by
  by_cases h : pid = k <;> simp [memoryView, h]

/-! ### Rebuild lemmas -/

theorem dictContains_rebuildStep (d : HistDict) (e : Entry) (i : Nat) :
    dictContains (rebuildStep d e) i = dictContains d i := by
  cases e with
  | moderator q => rfl
  | persona pid n txt =>
    by_cases h : dictContains d pid <;> simp [rebuildStep, h, dictContains_dictAppend]

theorem dictContains_foldl_rebuildStep (t : List Entry) :
    ∀ (d : HistDict) (i : Nat), dictContains (t.foldl rebuildStep d) i = dictContains d i := by
  induction t with
  | nil => intro d i; rfl
  | cons e t ih => intro d i; rw [List.foldl_cons, ih, dictContains_rebuildStep]

theorem dictGet_foldl_rebuildStep (t : List Entry) :
    ∀ (d : HistDict) (k : Nat), dictContains d k = true →
      dictGet (t.foldl rebuildStep d) k = (dictGet d k).map (fun l => l ++ memoryView t k) := by
  induction t with
  | nil =>
    intro d k _
    cases h : dictGet d k <;> simp [memoryView, h]
  | cons e t ih =>
    intro d k hk
    cases e with
    | moderator q =>
      rw [List.foldl_cons]
      show dictGet (t.foldl rebuildStep (rebuildStep d (.moderator q))) k = _
      rw [show rebuildStep d (.moderator q) = d from rfl, ih d k hk]
      simp [memoryView]
    | persona pid n txt =>
      rw [List.foldl_cons]
      by_cases hpid : dictContains d pid
      · rw [show rebuildStep d (.persona pid n txt) = dictAppend d pid txt by
          simp [rebuildStep, hpid]]
        rw [ih _ k (by rw [dictContains_dictAppend]; exact hk), dictGet_dictAppend]
        by_cases hkp : k = pid
        · subst hkp
          have hv : memoryView (Entry.persona k n txt :: t) k = txt :: memoryView t k := by
            simp [memoryView, List.filterMap_cons]
          rw [if_pos rfl, hv]
          cases h : dictGet d k <;> simp [h]
        · have hpk : pid ≠ k := fun h => hkp h.symm
          have hv : memoryView (Entry.persona pid n txt :: t) k = memoryView t k := by
            simp [memoryView, List.filterMap_cons, hpk]
          rw [if_neg hkp, hv]
      · rw [show rebuildStep d (.persona pid n txt) = d by simp [rebuildStep, hpid]]
        rw [ih d k hk]
        have hne : pid ≠ k := fun h => hpid (h ▸ hk)
        have hv : memoryView (Entry.persona pid n txt :: t) k = memoryView t k := by
          simp [memoryView, List.filterMap_cons, hne]
        rw [hv]

theorem dictGet_rebuildHist_of_mem {ps : List Persona} {p : Persona} (hp : p ∈ ps)
    (history : List Entry) :
    dictGet (rebuildHist ps history) p.id = some (memoryView history p.id) := by
  rw [rebuildHist, dictGet_foldl_rebuildStep history (initHist ps) p.id
    (dictContains_initHist_of_mem hp)]
  rw [dictGet_initHist]
  have hany : ps.any (fun q => q.id == p.id) = true := List.any_eq_true.mpr ⟨p, hp, by simp⟩
  rw [hany]
  simp

theorem dictContains_rebuildHist (ps : List Persona) (t : List Entry) (i : Nat) :
    dictContains (rebuildHist ps t) i = dictContains (initHist ps) i := by
  rw [rebuildHist, dictContains_foldl_rebuildStep]

theorem rebuildHist_snoc (ps : List Persona) (t : List Entry) (e : Entry) :
    rebuildHist ps (t ++ [e]) = rebuildStep (rebuildHist ps t) e := by
  simp [rebuildHist, List.foldl_append]

/-! ### Invariant preservation -/

theorem engineState_eq (a b : EngineState) (h1 : a.personas = b.personas)
    (h2 : a.audience_id = b.audience_id) (h3 : a.category = b.category)
    (h4 : a.transcript = b.transcript) (h5 : a.persona_history = b.persona_history) :
    a = b := by
  cases a; cases b; simp_all

theorem memInvariant_rebuild (s : EngineState) (history : List Entry) :
    MemInvariant (rebuild_state_from_history s history) := by
  intro p hp
  exact dictGet_rebuildHist_of_mem hp history

theorem memInvariant_moderator (s : EngineState) (q : String) (h : MemInvariant s) :
    MemInvariant { s with transcript := s.transcript ++ [.moderator q] } := by
  intro p hp
  have hs := h p hp
  show dictGet s.persona_history p.id = some (memoryView (s.transcript ++ [.moderator q]) p.id)
  rw [memoryView_append, memoryView_moderator, List.append_nil]
  exact hs

theorem memInvariant_record (s : EngineState) (pid : Nat) (n txt : String)
    (h : MemInvariant s) :
    MemInvariant { s with persona_history := dictAppend s.persona_history pid txt,
                          transcript := s.transcript ++ [.persona pid n txt] } := by
  intro p hp
  have hs := h p hp
  show dictGet (dictAppend s.persona_history pid txt) p.id
    = some (memoryView (s.transcript ++ [.persona pid n txt]) p.id)
  rw [dictGet_dictAppend, memoryView_append, memoryView_persona]
  by_cases hk : p.id = pid
  · rw [if_pos hk, hs, if_pos hk.symm]
    rfl
  · rw [if_neg hk, hs, if_neg (fun h' => hk h'.symm), List.append_nil]

theorem memInvariant_askLoop (gen : String → String → String) (q : String) :
    ∀ (ids : List Nat) (s : EngineState) (acc : List Response),
      MemInvariant s → MemInvariant (askLoop gen q ids s acc).1 := by
  intro ids
  induction ids with
  | nil => intro s acc h; exact h
  | cons pid rest ih =>
    intro s acc h
    cases hf : s.personas.find? (fun p => p.id == pid) with
    | none => simpa only [askLoop, hf] using ih s acc h
    | some persona =>
      by_cases hc : dictContains s.persona_history pid = true
      · simp only [askLoop, hf, hc, if_true]
        exact ih _ _ (memInvariant_record s pid persona.name _ h)
      · simp only [askLoop, hf, hc, if_false]
        exact h

theorem memInvariant_ask (sel : String → String) (gen : String → String → String)
    (s : EngineState) (q : String) (h : MemInvariant s) :
    MemInvariant (ask sel gen s q).1 := by
  by_cases he : s.personas.isEmpty = true
  · simp only [ask, he, if_true]
    exact h
  · simp only [ask, he, if_false]
    cases hsel : select_responders sel { s with transcript := s.transcript ++ [.moderator q] } q with
    | error e =>
      simp only [hsel]
      exact memInvariant_moderator s q h
    | ok ids =>
      simp only [hsel]
      exact memInvariant_askLoop gen q ids _ [] (memInvariant_moderator s q h)

theorem memInvariant_ask_persona (gen : String → String → String) (s : EngineState)
    (pid : Nat) (q : String) (h : MemInvariant s) :
    MemInvariant (ask_persona gen s pid q).1 := by
  cases hf : s.personas.find? (fun p => p.id == pid) with
  | none =>
    simp only [ask_persona, hf]
    exact h
  | some persona =>
    by_cases hc : dictContains s.persona_history pid = true
    · simp only [ask_persona, hf, hc, if_true]
      exact memInvariant_record _ pid persona.name _
        (memInvariant_moderator s ("[To " ++ persona.name ++ "] " ++ q) h)
    · simp only [ask_persona, hf, hc, if_false]
      exact memInvariant_moderator s ("[To " ++ persona.name ++ "] " ++ q) h

theorem keys_of_memInvariant (s : EngineState) (h : MemInvariant s) :
    ∀ p ∈ s.personas, dictContains s.persona_history p.id = true := by
  intro p hp
  rw [dictContains_eq_isSome, h p hp]
  rfl

theorem keys_of_strongInv (s : EngineState) (h : StrongInv s) :
    ∀ p ∈ s.personas, dictContains s.persona_history p.id = true := by
  intro p hp
  rw [h, dictContains_rebuildHist]
  exact dictContains_initHist_of_mem hp

theorem strongInv_moderator (s : EngineState) (q : String) (h : StrongInv s) :
    StrongInv { s with transcript := s.transcript ++ [.moderator q] } := by
  show s.persona_history = rebuildHist s.personas (s.transcript ++ [.moderator q])
  rw [rebuildHist_snoc]
  exact h

theorem strongInv_record (s : EngineState) (persona : Persona) (hp : persona ∈ s.personas)
    (n txt : String) (h : StrongInv s) :
    StrongInv { s with persona_history := dictAppend s.persona_history persona.id txt,
                       transcript := s.transcript ++ [.persona persona.id n txt] } := by
  show dictAppend s.persona_history persona.id txt
    = rebuildHist s.personas (s.transcript ++ [.persona persona.id n txt])
  rw [rebuildHist_snoc]
  have hc : dictContains (rebuildHist s.personas s.transcript) persona.id = true := by
    rw [dictContains_rebuildHist]
    exact dictContains_initHist_of_mem hp
  rw [show rebuildStep (rebuildHist s.personas s.transcript) (.persona persona.id n txt)
      = dictAppend (rebuildHist s.personas s.transcript) persona.id txt by
    simp [rebuildStep, hc]]
  rw [h]

theorem strongInv_askLoop (gen : String → String → String) (q : String) :
    ∀ (ids : List Nat) (s : EngineState) (acc : List Response),
      StrongInv s → StrongInv (askLoop gen q ids s acc).1 := by
  intro ids
  induction ids with
  | nil => intro s acc h; exact h
  | cons pid rest ih =>
    intro s acc h
    cases hf : s.personas.find? (fun p => p.id == pid) with
    | none => simpa only [askLoop, hf] using ih s acc h
    | some persona =>
      have hmem : persona ∈ s.personas := List.mem_of_find?_eq_some hf
      have hid : persona.id = pid := by
        have := List.find?_some hf
        simpa using this
      by_cases hc : dictContains s.persona_history pid = true
      · simp only [askLoop, hf, hc, if_true]
        apply ih
        rw [← hid]
        exact strongInv_record s persona hmem persona.name _ h
      · simp only [askLoop, hf, hc, if_false]
        exact h

theorem strongInv_ask (sel : String → String) (gen : String → String → String)
    (s : EngineState) (q : String) (h : StrongInv s) :
    StrongInv (ask sel gen s q).1 := by
  by_cases he : s.personas.isEmpty = true
  · simp only [ask, he, if_true]
    exact h
  · simp only [ask, he, if_false]
    cases hsel : select_responders sel { s with transcript := s.transcript ++ [.moderator q] } q with
    | error e =>
      simp only [hsel]
      exact strongInv_moderator s q h
    | ok ids =>
      simp only [hsel]
      exact strongInv_askLoop gen q ids _ [] (strongInv_moderator s q h)

/-! ### Structural lemmas about the ask loop -/

theorem askLoop_fields (gen : String → String → String) (q : String) :
    ∀ (ids : List Nat) (s : EngineState) (acc : List Response),
      (askLoop gen q ids s acc).1.personas = s.personas ∧
      (askLoop gen q ids s acc).1.category = s.category ∧
      (askLoop gen q ids s acc).1.audience_id = s.audience_id := by
  intro ids
  induction ids with
  | nil => intro s acc; exact ⟨rfl, rfl, rfl⟩
  | cons pid rest ih =>
    intro s acc
    cases hf : s.personas.find? (fun p => p.id == pid) with
    | none => simpa only [askLoop, hf] using ih s acc
    | some persona =>
      by_cases hc : dictContains s.persona_history pid = true
      · simpa only [askLoop, hf, hc, if_true] using ih _ _
      · simp only [askLoop, hf, hc, if_false]
        exact ⟨rfl, rfl, rfl⟩

theorem askLoop_transcript_extends (gen : String → String → String) (q : String) :
    ∀ (ids : List Nat) (s : EngineState) (acc : List Response),
      ∃ u, (askLoop gen q ids s acc).1.transcript = s.transcript ++ u := by
  intro ids
  induction ids with
  | nil => intro s acc; exact ⟨[], by simp [askLoop]⟩
  | cons pid rest ih =>
    intro s acc
    cases hf : s.personas.find? (fun p => p.id == pid) with
    | none => simpa only [askLoop, hf] using ih s acc
    | some persona =>
      by_cases hc : dictContains s.persona_history pid = true
      · simp only [askLoop, hf, hc, if_true]
        obtain ⟨u, hu⟩ := ih (stepState gen s pid persona q)
          (acc ++ [stepResponse gen s pid persona q])
        refine ⟨Entry.persona pid persona.name (generate_response gen s persona q) :: u, ?_⟩
        rw [hu]
        simp [stepState]
      · simp only [askLoop, hf, hc, if_false]
        exact ⟨[], by simp⟩

theorem askLoop_main (gen : String → String → String) (q : String) :
    ∀ (ids : List Nat) (s : EngineState) (acc : List Response),
      (∀ p ∈ s.personas, dictContains s.persona_history p.id = true) →
      ∃ (new : List Response) (s' : EngineState),
        askLoop gen q ids s acc = (s', .ok (acc ++ new)) ∧
        s'.personas = s.personas ∧
        s'.transcript = s.transcript ++ new.map respEntry ∧
        new.length = (ids.filter (fun i => (s.personas.find? (fun p => p.id == i)).isSome)).length ∧
        ∀ k, (new.filter (fun r => r.persona_id == k)).length =
          if (s.personas.find? (fun p => p.id == k)).isSome then ids.count k else 0 := by
  intro ids
  induction ids with
  | nil =>
    intro s acc h
    refine ⟨[], s, by simp [askLoop], rfl, by simp, by simp, ?_⟩
    intro k
    split <;> simp
  | cons pid rest ih =>
    intro s acc h
    cases hf : s.personas.find? (fun p => p.id == pid) with
    | none =>
      obtain ⟨new, s', heq, hpers, htrans, hlen, hcount⟩ := ih s acc h
      refine ⟨new, s', by simpa only [askLoop, hf] using heq, hpers, htrans, ?_, ?_⟩
      · rw [hlen, List.filter_cons]
        simp [hf]
      · intro k
        rw [hcount k]
        by_cases hk : pid = k
        · subst hk
          simp [hf]
        · by_cases hs : (s.personas.find? (fun p => p.id == k)).isSome <;>
            simp [hs, List.count_cons, hk]
    | some persona =>
      have hmem : persona ∈ s.personas := List.mem_of_find?_eq_some hf
      have hid : persona.id = pid := by
        have := List.find?_some hf
        simpa using this
      by_cases hc : dictContains s.persona_history pid = true
      · have hkeys' : ∀ p ∈ (stepState gen s pid persona q).personas,
            dictContains (stepState gen s pid persona q).persona_history p.id = true := by
          intro p hp
          show dictContains (dictAppend s.persona_history pid (generate_response gen s persona q)) p.id = true
          rw [dictContains_dictAppend]
          exact h p hp
        obtain ⟨new, s', heq, hpers, htrans, hlen, hcount⟩ :=
          ih (stepState gen s pid persona q) (acc ++ [stepResponse gen s pid persona q]) hkeys'
        have hSp : (stepState gen s pid persona q).personas = s.personas := rfl
        rw [hSp] at hpers hlen hcount
        refine ⟨stepResponse gen s pid persona q :: new, s', ?_, hpers, ?_, ?_, ?_⟩
        · rw [show askLoop gen q (pid :: rest) s acc
              = askLoop gen q rest (stepState gen s pid persona q)
                  (acc ++ [stepResponse gen s pid persona q]) by
            simp only [askLoop, hf, hc, if_true]]
          rw [heq]
          simp
        · rw [htrans]
          simp [stepState, stepResponse, respEntry]
        · simp [List.filter_cons, hf, hlen]
        · intro k
          by_cases hk : pid = k
          · subst hk
            have hcnt := hcount pid
            rw [if_pos (by simp [hf])] at hcnt
            rw [List.filter_cons]
            simp only [show (stepResponse gen s pid persona q).persona_id = pid from rfl]
            simp [hcnt, hf, List.count_cons]
          · have hcnt := hcount k
            rw [List.filter_cons]
            simp only [show (stepResponse gen s pid persona q).persona_id = pid from rfl]
            rw [if_neg (by simpa using hk)]
            rw [hcnt]
            by_cases hs : (s.personas.find? (fun p => p.id == k)).isSome <;>
              simp [hs, List.count_cons, hk]
      · exfalso
        have := h persona hmem
        rw [hid] at this
        exact hc this

theorem ask_ok (sel : String → String) (gen : String → String → String) (s : EngineState)
    (q : String) (ids : List Nat)
    (hne : s.personas.isEmpty = false)
    (hkeys : ∀ p ∈ s.personas, dictContains s.persona_history p.id = true)
    (hsel : select_responders sel { s with transcript := s.transcript ++ [.moderator q] } q
      = .ok ids) :
    ∃ rs, (ask sel gen s q).2 = .ok rs ∧
      (ask sel gen s q).1.transcript = s.transcript ++ .moderator q :: rs.map respEntry ∧
      rs.length = (ids.filter (fun i => (s.personas.find? (fun p => p.id == i)).isSome)).length ∧
      ∀ k, (rs.filter (fun r => r.persona_id == k)).length =
        if (s.personas.find? (fun p => p.id == k)).isSome then ids.count k else 0 := by
  obtain ⟨new, s', heq, hpers, htrans, hlen, hcount⟩ :=
    askLoop_main gen q ids { s with transcript := s.transcript ++ [.moderator q] } [] hkeys
  rw [List.nil_append] at heq
  have hask : ask sel gen s q = (s', .ok new) := by
    simp only [ask, hne, Bool.false_eq_true, if_false, hsel]
    exact heq
  rw [hask]
  exact ⟨new, rfl, by rw [htrans]; simp, hlen, hcount⟩

/-- After a successful `load_audience`, the reachability invariant holds. -/
theorem strongInv_load (catalog : Catalog) (audience_id : String) (s s1 : EngineState)
    (ps : List Persona) (h : load_audience catalog audience_id s = .ok (s1, ps)) :
    StrongInv s1 ∧ s1.transcript = [] ∧ s1.personas = ps := by
  cases hfind : catalog.find? (fun kv => kv.1 == audience_id) with
  | none => simp [load_audience, hfind] at h
  | some kv =>
    simp only [load_audience, hfind, Except.ok.injEq, Prod.mk.injEq] at h
    obtain ⟨h1, h2⟩ := h
    subst h1
    exact ⟨rfl, rfl, h2⟩

/-- `load_audience` overwrites every state field it touches, so its result
does not depend on the incoming state. -/
theorem load_audience_state_free (catalog : Catalog) (audience_id : String)
    (s t : EngineState) :
    load_audience catalog audience_id t = load_audience catalog audience_id s := rfl

theorem ask_fields (sel : String → String) (gen : String → String → String)
    (s : EngineState) (q : String) :
    (ask sel gen s q).1.personas = s.personas ∧
    (ask sel gen s q).1.category = s.category ∧
    (ask sel gen s q).1.audience_id = s.audience_id := by
  by_cases he : s.personas.isEmpty = true
  · simp only [ask, he, if_true]
    exact ⟨by trivial, by trivial, by trivial⟩
  · simp only [ask, he, if_false]
    cases hsel : select_responders sel { s with transcript := s.transcript ++ [.moderator q] } q with
    | error e =>
      simp only [hsel]
      exact ⟨by trivial, by trivial, by trivial⟩
    | ok ids =>
      simp only [hsel]
      exact askLoop_fields gen q ids _ []

theorem memoryView_map_respEntry (rs : List Response) (k : Nat) :
    memoryView (rs.map respEntry) k
      = (rs.filter (fun r => r.persona_id == k)).map (fun r => r.text) := by
  induction rs with
  | nil => rfl
  | cons r rs ih =>
    by_cases h : r.persona_id = k <;>
      simp [memoryView, List.filterMap_cons, respEntry, List.filter_cons, h, ih, memoryView] at *
    · exact ih
    · exact ih

/-- The imperative `recent_speakers` loop equals the declarative filterMap of
persona names over the same window. -/
theorem foldl_names_eq (l : List Entry) :
    ∀ acc : List String,
      l.foldl (fun acc e =>
        match e with
        | .moderator _ => acc
        | .persona _ name _ => acc ++ [name]) acc
      = acc ++ l.filterMap personaNameOf := by
  induction l with
  | nil => intro acc; simp
  | cons e l ih =>
    intro acc
    cases e with
    | moderator t => simp [List.filterMap_cons, personaNameOf, ih]
    | persona pid n t => simp [List.filterMap_cons, personaNameOf, ih acc, ih (acc ++ [n])]

/-- The imperative quote loop of `history_text` equals the declarative
concatenation of the quoted statements. -/
theorem foldl_quotes_eq (l : List String) :
    ∀ acc : String,
      l.foldl (fun acc stmt => acc ++ "- \"" ++ stmt ++ "\"\n") acc
      = acc ++ concatAll (l.map (fun stmt => "- \"" ++ stmt ++ "\"\n")) := by
  induction l with
  | nil => intro acc; simp [concatAll, String.append_empty]
  | cons x l ih =>
    intro acc
    simp only [List.foldl_cons, List.map_cons, concatAll, ih]
    simp [String.append_assoc]

/-! ### The claims -/

/-- C1: for every loaded persona id `p`, the PersonaMemory dict equals the
ordered list of text fields of the transcript entries with role "persona" and
that persona id — established by conversation-state reconstruction from any
client-supplied history, and preserved by every group ask and direct ask. -/
theorem c1_persona_memory_invariant (sel : String → String) (gen : String → String → String)
    (s : EngineState) (history : List Entry) (q : String) (pid : Nat) :
    MemInvariant (rebuild_state_from_history s history) ∧
    (MemInvariant s → MemInvariant (ask sel gen s q).1) ∧
    (MemInvariant s → MemInvariant (ask_persona gen s pid q).1) :=
  ⟨memInvariant_rebuild s history,
   memInvariant_ask sel gen s q,
   memInvariant_ask_persona gen s pid q⟩

/-- C1 witness: the invariant holds on the loaded example audience and is
preserved by a concrete group ask. -/
theorem c1_witness :
    MemInvariant exLoaded ∧
    MemInvariant (ask (fun _ => "[\"Ann\"]") (fun _ _ => "fine") exLoaded "Q1").1 :=
  ⟨by unfold MemInvariant; decide,
   (c1_persona_memory_invariant (fun _ => "[\"Ann\"]") (fun _ _ => "fine")
      exLoaded [] "Q1" 1).2.1 (by unfold MemInvariant; decide)⟩

/-- C4: direct ask on a persona id absent from the loaded audience returns the
not-found error (the `ValueError` realizing the spec's NotFoundError), with
the state — transcript and PersonaMemory — exactly as before the call: no
moderator entry is appended on the error path. -/
theorem c4_direct_ask_unknown (gen : String → String → String) (s : EngineState)
    (pid : Nat) (q : String) (h : ∀ p ∈ s.personas, p.id ≠ pid) :
    ask_persona gen s pid q
      = (s, .error (.valueError ("Persona " ++ toString pid ++ " not found"))) := by
  have hf : s.personas.find? (fun p => p.id == pid) = none := by
    rw [List.find?_eq_none]
    intro p hp
    simpa using h p hp
  simp [ask_persona, hf]

/-- C4 witness: persona id 999 on the 4-persona example audience. -/
theorem c4_witness :
    (∀ p ∈ exLoaded.personas, p.id ≠ 999) ∧
    ask_persona (fun _ _ => "x") exLoaded 999 "Q"
      = (exLoaded, .error (.valueError ("Persona " ++ toString 999 ++ " not found"))) :=
  ⟨by decide, c4_direct_ask_unknown (fun _ _ => "x") exLoaded 999 "Q" (by decide)⟩

/-- C5 (code bug): the selector catches only JSON decode errors; a raw reply
whose first bracketed substring parses to an array containing an object — for
example `[\x7b\x7d]` — raises `TypeError` (unhashable dict) from the
`n in name_to_id` membership test instead of falling back to the first 3
personas in catalog order, which would be `[1, 2, 3]` here. -/
theorem c5_selector_raises_on_object :
    select_responders (fun _ => "[\x7b\x7d]") exLoaded "Why?" = .error .typeErrorUnhashable
    ∧ fallbackIds exLoaded = [1, 2, 3] :=
  ⟨rfl, rfl⟩

/-- C6 counterexample: in `exT6` Ann speaks twice among the last 6 transcript
entries; the recent-speakers signal the selector renders lists her name
twice, refuting the claim that each name occurs at most once. -/
theorem c6_counterexample :
    recentSpeakersText exT6 = "Ann, Ben, Ann"
    ∧ ¬ (recentSpeakersLoop exT6).count "Ann" ≤ 1 := by
  exact ⟨rfl, by decide⟩

/-- C6 amended: the recent-speakers signal placed in the selection request is
the list of persona names of the persona entries among the last 6 transcript
entries, in transcript order, with one occurrence per entry (duplicates
retained, no deduplication), joined with ", " (or "None yet" when empty). -/
theorem c6_recent_speakers_amended (s : EngineState) (q : String) :
    recentSpeakersLoop s.transcript = (pyTail 6 s.transcript).filterMap personaNameOf
    ∧ recentSpeakersText s.transcript
      = (if (pyTail 6 s.transcript).filterMap personaNameOf = [] then "None yet"
         else String.intercalate ", " ((pyTail 6 s.transcript).filterMap personaNameOf))
    ∧ ∃ a b : String, selectionRequest s q = a ++ recentSpeakersText s.transcript ++ b := by
  have h1 : recentSpeakersLoop s.transcript = (pyTail 6 s.transcript).filterMap personaNameOf := by
    have := foldl_names_eq (pyTail 6 s.transcript) []
    simpa [recentSpeakersLoop] using this
  refine ⟨h1, ?_, ?_⟩
  · rw [recentSpeakersText, h1]
    by_cases h : (pyTail 6 s.transcript).filterMap personaNameOf = [] <;>
      simp [h, List.isEmpty_iff]
  · exact ⟨"You are moderating a focus group. The moderator just asked:\n\n\"" ++ q
        ++ "\"\n\nHere are the participants:\n"
        ++ String.intercalate "\n" (s.personas.map (personaSummary s.persona_history))
        ++ "\n\nRecent speakers (last few responses): ",
      "\n\nSelect 2-4 participants who would NATURALLY respond to this question. Consider:\n1. Who has relevant experience/opinions based on their profile?\n2. Who hasn\x27t spoken recently and might want to contribute?\n3. Natural group dynamics - some people talk more than others\n4. The question topic - who would this resonate with?\n\nReturn ONLY a JSON array of participant names who should respond, in the order they\x27d speak.\nExample: [\"Marcus\", \"Jennifer\", \"David\"]\n\nDo NOT include everyone. Real focus groups have natural turn-taking.",
      by simp [selectionRequest, String.append_assoc]⟩

/-- C9: direct ask to a loaded persona appends a moderator entry whose text is
exactly the concatenation "[To " ++ name ++ "] " ++ question. -/
theorem c9_directed_tag (gen : String → String → String) (s : EngineState) (pid : Nat)
    (q : String) (persona : Persona)
    (hf : s.personas.find? (fun p => p.id == pid) = some persona) :
    ∃ rest, (ask_persona gen s pid q).1.transcript
      = s.transcript ++ Entry.moderator ("[To " ++ persona.name ++ "] " ++ q) :: rest := by
  by_cases hc : dictContains s.persona_history pid = true
  · simp only [ask_persona, hf, hc, if_true]
    refine ⟨[Entry.persona pid persona.name (generate_response gen
      { s with transcript := s.transcript
          ++ [Entry.moderator ("[To " ++ persona.name ++ "] " ++ q)] } persona q)], ?_⟩
    simp
  · simp only [ask_persona, hf, hc, if_false]
    exact ⟨[], by simp⟩

/-- C9 witness: Ann (id 1) with a concrete question. -/
theorem c9_witness :
    exLoaded.personas.find? (fun p => p.id == 1) = some ann ∧
    ∃ rest, (ask_persona (fun _ _ => "r") exLoaded 1 "How?").1.transcript
      = exLoaded.transcript
          ++ Entry.moderator ("[To " ++ ann.name ++ "] " ++ "How?") :: rest :=
  ⟨by decide, c9_directed_tag (fun _ _ => "r") exLoaded 1 "How?" ann (by decide)⟩

/-- C3: a group ask returns without error, appends exactly one moderator entry
carrying the raw question text followed by exactly one persona entry per
selector-returned id that resolves to a loaded persona (zero when none
resolve), and the returned responses are, in order, exactly the appended
persona entries. -/
theorem c3_group_ask_shape (sel : String → String) (gen : String → String → String)
    (s : EngineState) (q : String) (ids : List Nat)
    (hne : s.personas ≠ [])
    (hkeys : ∀ p ∈ s.personas, dictContains s.persona_history p.id = true)
    (hsel : select_responders sel { s with transcript := s.transcript ++ [.moderator q] } q
      = .ok ids) :
    ∃ rs, (ask sel gen s q).2 = .ok rs ∧
      (ask sel gen s q).1.transcript
        = s.transcript ++ Entry.moderator q :: rs.map respEntry ∧
      rs.length = (ids.filter (fun i => (s.personas.find? (fun p => p.id == i)).isSome)).length := by
  have hne' : s.personas.isEmpty = false := by
    cases h : s.personas.isEmpty
    · rfl
    · exact absurd (List.isEmpty_iff.mp h) hne
  obtain ⟨rs, h1, h2, h3, _⟩ := ask_ok sel gen s q ids hne' hkeys hsel
  exact ⟨rs, h1, h2, h3⟩

/-- C3 witness: a concrete group ask on the example audience where the
selector reply resolves to Ann and Ben. -/
theorem c3_witness :
    exLoaded.personas ≠ [] ∧
    select_responders (fun _ => "[\"Ann\", \"Ben\"]")
      { exLoaded with transcript := exLoaded.transcript ++ [.moderator "Q2"] } "Q2"
      = .ok [1, 2] ∧
    ∃ rs, (ask (fun _ => "[\"Ann\", \"Ben\"]") (fun _ _ => "ok") exLoaded "Q2").2 = .ok rs ∧
      (ask (fun _ => "[\"Ann\", \"Ben\"]") (fun _ _ => "ok") exLoaded "Q2").1.transcript
        = exLoaded.transcript ++ Entry.moderator "Q2" :: rs.map respEntry ∧
      rs.length = (([1, 2] : List Nat).filter
        (fun i => (exLoaded.personas.find? (fun p => p.id == i)).isSome)).length :=
  ⟨by decide, rfl,
   c3_group_ask_shape (fun _ => "[\"Ann\", \"Ben\"]") (fun _ _ => "ok") exLoaded "Q2" [1, 2]
     (by decide) (by decide) rfl⟩

/-- C7: when the persona's memory is non-empty, the grounding prompt is the
template with the block quoting verbatim exactly the last 5 (all, when fewer
than 5) utterances of that persona's memory, in order, followed by the
do-not-contradict instruction; when the memory is empty, the prompt is the
template with no prior-statements block at all. -/
theorem c7_prompt_last_five (s : EngineState) (p : Persona) :
    (((dictGet s.persona_history p.id).getD []) ≠ [] →
      build_persona_prompt s p
        = promptHead s p
          ++ ("\n\nWHAT YOU\x27VE ALREADY SAID IN THIS CONVERSATION:\n"
              ++ concatAll ((pyTail 5 ((dictGet s.persona_history p.id).getD [])).map
                  (fun stmt => "- \"" ++ stmt ++ "\"\n"))
              ++ "\nDo NOT contradict these. You can reference them naturally.")
          ++ promptClose p) ∧
    (((dictGet s.persona_history p.id).getD []) = [] →
      build_persona_prompt s p = promptHead s p ++ promptClose p) := by
  constructor
  · intro h
    rw [build_persona_prompt, historyText,
      if_neg (by simp [List.isEmpty_iff, h]), foldl_quotes_eq, String.empty_append]
  · intro h
    rw [build_persona_prompt, historyText, if_pos (by simp [h]), String.append_empty]

/-- C7 witness: Ann with six remembered utterances (the block quotes the last
five) and Ben with none (no block). -/
theorem c7_witness :
    (dictGet exState7.persona_history 1).getD [] ≠ [] ∧
    build_persona_prompt exState7 ann
      = promptHead exState7 ann
        ++ ("\n\nWHAT YOU\x27VE ALREADY SAID IN THIS CONVERSATION:\n"
            ++ concatAll ((pyTail 5 ((dictGet exState7.persona_history 1).getD [])).map
                (fun stmt => "- \"" ++ stmt ++ "\"\n"))
            ++ "\nDo NOT contradict these. You can reference them naturally.")
        ++ promptClose ann ∧
    build_persona_prompt exState7 ben = promptHead exState7 ben ++ promptClose ben :=
  ⟨by decide,
   (c7_prompt_last_five exState7 ann).1 (by decide),
   (c7_prompt_last_five exState7 ben).2 (by decide)⟩

/-- C8 (catalog modelled from the spec): for an audience id present in a
catalog whose audiences have ids unique within them, load returns the persona
list as stored — its length equals the stored record count and its ids are
pairwise distinct. -/
theorem c8_load_count_nodup (catalog : Catalog) (audience_id : String) (s : EngineState)
    (kv : String × AudienceData) (hw : CatalogWellFormed catalog)
    (hfind : catalog.find? (fun e => e.1 == audience_id) = some kv) :
    ∃ sL ps, load_audience catalog audience_id s = .ok (sL, ps) ∧
      ps.length = kv.2.personas.length ∧
      (ps.map (fun p => p.id)).Nodup := by
  refine ⟨{ personas := kv.2.personas.map PersonaRecord.from_dict,
            audience_id := some audience_id,
            category := kv.2.category,
            transcript := [],
            persona_history := initHist (kv.2.personas.map PersonaRecord.from_dict) },
    kv.2.personas.map PersonaRecord.from_dict, by simp [load_audience, hfind], by simp, ?_⟩
  have hkv : kv ∈ catalog := List.mem_of_find?_eq_some hfind
  have hnd := hw kv hkv
  simpa [List.map_map, Function.comp, PersonaRecord.from_dict] using hnd

/-- C8 witness: the example catalog. -/
theorem c8_witness :
    CatalogWellFormed exCatalog ∧
    ∃ sL ps, load_audience exCatalog "premium_chocolate" initState = .ok (sL, ps) ∧
      ps.length = (exPersonas.map toRecord).length ∧
      (ps.map (fun p => p.id)).Nodup :=
  ⟨by unfold CatalogWellFormed; decide,
   c8_load_count_nodup exCatalog "premium_chocolate" initState
     ("premium_chocolate", { category := "premium chocolate", personas := exPersonas.map toRecord })
     (by unfold CatalogWellFormed; decide) (by decide)⟩

/-- C10: selected responder ids are not deduplicated — name resolution keeps
one id per listed occurrence (concretely, listing "Ann" twice yields her id
twice), and for a selector result containing a resolving id `n` times the
orchestrator returns `n` separate responses from that persona, appends `n`
persona entries to the transcript, and records all of them in PersonaMemory
within that single turn. -/
theorem c10_duplicates_not_deduplicated (sel : String → String) (gen : String → String → String)
    (s : EngineState) (q : String) (ids : List Nat) (persona : Persona)
    (hne : s.personas ≠ [])
    (hinv : MemInvariant s)
    (hsel : select_responders sel { s with transcript := s.transcript ++ [.moderator q] } q
      = .ok ids)
    (hp : s.personas.find? (fun x => x.id == persona.id) = some persona) :
    select_responders (fun _ => "[\"Ann\", \"Ann\"]") exLoaded "Q" = .ok [1, 1] ∧
    ∃ rs, (ask sel gen s q).2 = .ok rs ∧
      (rs.filter (fun r => r.persona_id == persona.id)).length = ids.count persona.id ∧
      (memoryView (ask sel gen s q).1.transcript persona.id).length
        = (memoryView s.transcript persona.id).length + ids.count persona.id ∧
      dictGet (ask sel gen s q).1.persona_history persona.id
        = some (memoryView (ask sel gen s q).1.transcript persona.id) := by
  have hne' : s.personas.isEmpty = false := by
    cases h : s.personas.isEmpty
    · rfl
    · exact absurd (List.isEmpty_iff.mp h) hne
  obtain ⟨rs, h1, h2, h3, h4⟩ := ask_ok sel gen s q ids hne' (keys_of_memInvariant s hinv) hsel
  have hcnt := h4 persona.id
  rw [if_pos (by simp [hp])] at hcnt
  refine ⟨rfl, rs, h1, hcnt, ?_, ?_⟩
  · rw [h2, memoryView_append]
    have hmod : memoryView (Entry.moderator q :: rs.map respEntry) persona.id
        = memoryView (rs.map respEntry) persona.id := by
      simp [memoryView, List.filterMap_cons]
    rw [hmod, memoryView_map_respEntry]
    simp [hcnt]
  · exact memInvariant_ask sel gen s q hinv persona
      (by rw [(ask_fields sel gen s q).1]; exact List.mem_of_find?_eq_some hp)

/-- C10 witness: the selector reply lists Ann twice; she answers twice in the
one turn. -/
theorem c10_witness :
    select_responders (fun _ => "[\"Ann\", \"Ann\"]") exLoaded "Q" = .ok [1, 1] ∧
    ∃ rs, (ask (fun _ => "[\"Ann\", \"Ann\"]") (fun _ _ => "yes") exLoaded "Q").2 = .ok rs ∧
      (rs.filter (fun r => r.persona_id == ann.id)).length = ([1, 1] : List Nat).count ann.id ∧
      (memoryView (ask (fun _ => "[\"Ann\", \"Ann\"]") (fun _ _ => "yes") exLoaded "Q").1.transcript
          ann.id).length
        = (memoryView exLoaded.transcript ann.id).length + ([1, 1] : List Nat).count ann.id ∧
      dictGet (ask (fun _ => "[\"Ann\", \"Ann\"]") (fun _ _ => "yes") exLoaded "Q").1.persona_history
          ann.id
        = some (memoryView
            (ask (fun _ => "[\"Ann\", \"Ann\"]") (fun _ _ => "yes") exLoaded "Q").1.transcript
            ann.id) :=
  c10_duplicates_not_deduplicated (fun _ => "[\"Ann\", \"Ann\"]") (fun _ _ => "yes")
    exLoaded "Q" [1, 1] ann (by decide) (by unfold MemInvariant; decide) rfl (by decide)

/-- C2: conversation-state reconstruction is idempotent (reconstructing again
from the transcript it produced changes nothing), and memory derivation
depends only on transcript content, not call boundaries: feeding the
transcript output of one stateless ask back in as history to a second call
yields exactly the state — in particular the same PersonaMemory for every
persona — of the same two asks run in one session. -/
theorem c2_reconstruction_roundtrip (catalog : Catalog) (sel : String → String)
    (gen : String → String → String) (aid q1 q2 : String) (s0 t0 sL : EngineState)
    (ps : List Persona) (rs1 : List Response) (h1 : List Entry)
    (hload : load_audience catalog aid s0 = .ok (sL, ps))
    (hok1 : (ask_stateless sel gen catalog s0 q1 aid []).2 = .ok (rs1, h1)) :
    (∀ (s : EngineState) (history : List Entry),
      rebuild_state_from_history (rebuild_state_from_history s history)
        (rebuild_state_from_history s history).transcript
        = rebuild_state_from_history s history) ∧
    (ask_stateless sel gen catalog t0 q2 aid h1).1
      = (ask sel gen (ask sel gen sL q1).1 q2).1 ∧
    (∀ p ∈ sL.personas,
      dictGet (ask_stateless sel gen catalog t0 q2 aid h1).1.persona_history p.id
        = dictGet (ask sel gen (ask sel gen sL q1).1 q2).1.persona_history p.id) := by
  have hIdem : ∀ (s : EngineState) (history : List Entry),
      rebuild_state_from_history (rebuild_state_from_history s history)
        (rebuild_state_from_history s history).transcript
        = rebuild_state_from_history s history := fun s history => rfl
  have hload' : load_audience catalog aid t0 = .ok (sL, ps) := by
    rw [load_audience_state_free catalog aid s0 t0]
    exact hload
  obtain ⟨hSIL, htr0, hpsL⟩ := strongInv_load catalog aid s0 sL ps hload
  rcases hA : ask sel gen sL q1 with ⟨sA, resA⟩
  have hok1' := hok1
  simp only [ask_stateless, hload, List.isEmpty_nil, if_true] at hok1'
  rw [hA] at hok1'
  cases resA with
  | error e => simp at hok1'
  | ok rsA =>
    simp only [Except.ok.injEq, Prod.mk.injEq] at hok1'
    obtain ⟨hrs, hh1⟩ := hok1'
    have hSIA : StrongInv sA := by
      have := strongInv_ask sel gen sL q1 hSIL
      rw [hA] at this
      exact this
    have hfields := ask_fields sel gen sL q1
    rw [hA] at hfields
    subst hh1
    have hXA : (if sA.transcript.isEmpty then sL else rebuild_state_from_history sL sA.transcript)
        = sA := by
      by_cases hE : sA.transcript.isEmpty = true
      · exfalso
        by_cases hPE : sL.personas.isEmpty = true
        · rw [show ask sel gen sL q1
              = (sL, .error (.valueError "No personas loaded. Call load_audience() first.")) by
            simp [ask, hPE]] at hA
          simp at hA
        · have hA' := hA
          simp only [ask, hPE, Bool.false_eq_true, if_false] at hA'
          cases hsel : select_responders sel
              { sL with transcript := sL.transcript ++ [.moderator q1] } q1 with
          | error e =>
            rw [hsel] at hA'
            simp at hA'
          | ok ids =>
            rw [hsel] at hA'
            have hA2 : askLoop gen q1 ids
                { sL with transcript := sL.transcript ++ [Entry.moderator q1] } []
                = (sA, .ok rsA) := hA'
            obtain ⟨u, hu⟩ := askLoop_transcript_extends gen q1 ids
              { sL with transcript := sL.transcript ++ [Entry.moderator q1] } []
            rw [hA2] at hu
            have hT : sA.transcript = sL.transcript ++ [Entry.moderator q1] ++ u := hu
            rw [htr0] at hT
            rw [List.isEmpty_iff] at hE
            rw [hE] at hT
            simp at hT
      · rw [if_neg hE]
        apply engineState_eq
        · exact hfields.1.symm
        · exact hfields.2.2.symm
        · exact hfields.2.1.symm
        · rfl
        · show rebuildHist sL.personas sA.transcript = sA.persona_history
          rw [← hfields.1]
          exact hSIA.symm
    have hMain : (ask_stateless sel gen catalog t0 q2 aid sA.transcript).1
        = (ask sel gen sA q2).1 := by
      rcases hB : ask sel gen sA q2 with ⟨sB, resB⟩
      simp only [ask_stateless, hload']
      rw [hXA, hB]
      cases resB <;> rfl
    refine ⟨hIdem, hMain, ?_⟩
    intro p hp
    rw [hMain]

/-- C2 witness: both stateless calls succeed on the example catalog and the
round-trip equalities hold there. -/
theorem c2_witness :
    load_audience exCatalog "premium_chocolate" initState = .ok (exLoaded, exLoaded.personas) ∧
    (ask_stateless (fun _ => "[\"Ann\"]") (fun _ _ => "g") exCatalog initState "Q1"
        "premium_chocolate" []).2
      = .ok ([⟨1, "Ann", "g"⟩], [.moderator "Q1", .persona 1 "Ann" "g"]) ∧
    ((∀ (s : EngineState) (history : List Entry),
        rebuild_state_from_history (rebuild_state_from_history s history)
          (rebuild_state_from_history s history).transcript
          = rebuild_state_from_history s history) ∧
      (ask_stateless (fun _ => "[\"Ann\"]") (fun _ _ => "g") exCatalog initState "Q2"
          "premium_chocolate" [.moderator "Q1", .persona 1 "Ann" "g"]).1
        = (ask (fun _ => "[\"Ann\"]") (fun _ _ => "g")
            (ask (fun _ => "[\"Ann\"]") (fun _ _ => "g") exLoaded "Q1").1 "Q2").1 ∧
      (∀ p ∈ exLoaded.personas,
        dictGet (ask_stateless (fun _ => "[\"Ann\"]") (fun _ _ => "g") exCatalog initState "Q2"
            "premium_chocolate" [.moderator "Q1", .persona 1 "Ann" "g"]).1.persona_history p.id
          = dictGet (ask (fun _ => "[\"Ann\"]") (fun _ _ => "g")
              (ask (fun _ => "[\"Ann\"]") (fun _ _ => "g") exLoaded "Q1").1 "Q2").1.persona_history
              p.id)) :=
  ⟨rfl, rfl,
   c2_reconstruction_roundtrip exCatalog (fun _ => "[\"Ann\"]") (fun _ _ => "g")
     "premium_chocolate" "Q1" "Q2" initState initState exLoaded exLoaded.personas
     [⟨1, "Ann", "g"⟩] [.moderator "Q1", .persona 1 "Ann" "g"] rfl rfl⟩

end FocusGroup
